import Mathlib

/-!
Shallow embedding of the hyperliquid-watcher core
(src/hyperliquid-watcher/hyperliquid.py).

Conventions used throughout this development:
* Python ints are modelled as Lean Int (arbitrary precision in both).
* Python strings are Lean String; slices, lower-casing and stripping are
  modelled by the py* helpers below, which clamp out-of-range indices the
  way Python slices do.
* Fallible Python code (expressions that can raise) is modelled with
  Except; a raised exception that the surrounding code catches is an
  explicit error value.
* Network effects (RPC responses, probe measurements, HTTP outcomes,
  wall-clock readings) are inputs supplied by an environment record; the
  in-code retry loop of rpc() is absorbed into the environment: the
  environment value is the final outcome the caller of rpc() observes
  (a result string, or nothing when all retries failed).
-/

namespace HLWatcher


/-- String constants used by the embedding (kept as named definitions). -/
def strEmpty : String := ""

def str0x : String := "0x"

def str0x0 : String := "0x0"

def strUNK : String := "UNK"

def strBUY : String := "BUY"

def strSELL : String := "SELL"

/-- Transfer event signature topic; module constant ERC20_SIG. -/
def ERC20_SIG : String := "0xddf252ad1be2c89b69c2b068fc378daa952ba7f163c4a11628f55a4df523b3ef"

/-- Python s.lower(); on the ASCII strings this watcher handles this is
per-character ASCII lowercasing. -/
def pyLower (s : String) : String :=
  ⟨s.toList.map Char.toLower⟩

/-- The configured watched address before lowercasing. -/
def watchRaw : String := "0x07c249fa3902fd243ad0fa58047bE8A3262B7104"

/-- Watched address, lowercased at module load; module constant WATCH_ADDRESS. -/
def WATCH_ADDRESS : String := pyLower watchRaw

/-- Module constant MAX_BLOCK_GAP. -/
def MAX_BLOCK_GAP : Int := 10

/-- Module constant BATCH_SIZE. -/
def BATCH_SIZE : Int := 100

/-- Value of one hexadecimal digit. -/
def hexDigitVal? (c : Char) : Option Nat :=
  if ('0') ≤ c ∧ c ≤ ('9') then some (c.toNat - ('0').toNat)
  else if ('a') ≤ c ∧ c ≤ ('f') then some (c.toNat - ('a').toNat + 10)
  else if ('A') ≤ c ∧ c ≤ ('F') then some (c.toNat - ('A').toNat + 10)
  else none

/-- Big-endian accumulation of hex digits; none on a non-hex character. -/
def hexDigitsAux : List Char → Nat → Option Nat
  | [], acc => some acc
  | c :: cs, acc =>
    match hexDigitVal? c with
    | none => none
    | some d => hexDigitsAux cs (acc * 16 + d)

/-- Model of Python int(s, 16): an optional sign, an optional 0x/0X prefix,
then at least one hex digit.  Returns none where Python raises ValueError.
(Python additionally tolerates surrounding whitespace and inner
underscores; such strings are treated as errors here, which never occur in
the inputs the claims are about.) -/
def pyInt? (s : String) : Option Int :=
  let cs0 := s.toList
  let sign : Int := if cs0.head? = some ('-') then -1 else 1
  let cs1 := if cs0.head? = some ('-') ∨ cs0.head? = some ('+') then cs0.tail else cs0
  let cs2 :=
    if cs1.take 2 = [('0'), ('x')] ∨ cs1.take 2 = [('0'), ('X')] then cs1.drop 2
    else cs1
  if cs2 = [] then none
  else
    match hexDigitsAux cs2 0 with
    | none => none
    | some n => some (sign * (n : Int))

/-- Python s[-n:] — the last n characters (the whole string when shorter). -/
def pyLastN (n : Nat) (s : String) : String :=
  ⟨s.toList.drop (s.toList.length - n)⟩

/-- Python s[n:]. -/
def pyDrop (n : Nat) (s : String) : String :=
  ⟨s.toList.drop n⟩

/-- Python s[:n]. -/
def pyTake (n : Nat) (s : String) : String :=
  ⟨s.toList.take n⟩

/-- Python s[a:b] for 0 ≤ a ≤ b. -/
def pySlice (s : String) (a b : Nat) : String :=
  ⟨(s.toList.drop a).take (b - a)⟩

/-- Python s.rstrip("0"). -/
def pyRstrip0 (s : String) : String :=
  ⟨(s.toList.reverse.dropWhile (fun c => c == ('0'))).reverse⟩

/-- Python s.strip("\x00"). -/
def pyStripNul (s : String) : String :=
  ⟨((s.toList.dropWhile (fun c => c.toNat == 0)).reverse.dropWhile
      (fun c => c.toNat == 0)).reverse⟩

/-- Python s.strip() (whitespace at both ends). -/
def pyStrip (s : String) : String :=
  ⟨((s.toList.dropWhile Char.isWhitespace).reverse.dropWhile
      Char.isWhitespace).reverse⟩

/-- A raised Python exception observed by a handler; the watcher only ever
distinguishes exception presence, not its class, so one constructor
suffices (ValueError, UnboundLocalError, requests errors all land in the
same bare except clauses). -/
inductive PyErr
  | valueError
deriving Repr, DecidableEq

/-- A raw log as delivered by eth_getLogs: each field is optional to mirror
the dict .get accesses with their defaults. -/
structure RawLog where
  topics : Option (List String)
  data : Option String
  address : Option String
  transactionHash : Option String
  blockNumber : Option String
deriving Repr, DecidableEq

/-- Decoded transfer event (the dict returned by decode_log).
fromAddr/toAddr model the "from"/"to" keys. -/
structure TransferEvent where
  fromAddr : String
  toAddr : String
  value : Int
  token : String
  txHash : String
  blockNumber : Int
deriving Repr, DecidableEq

/-- decode_log: Except models an uncaught exception escaping decode_log
(int() on a malformed hex word); .ok none models the return None paths. -/
def decode_log (log : RawLog) : Except PyErr (Option TransferEvent) :=
  match log.topics.getD [] with
  | t0 :: t1 :: t2 :: rest =>
    if t0 = ERC20_SIG then
      let from_addr := str0x ++ pyLower (pyLastN 40 t1)
      let to_addr := str0x ++ pyLower (pyLastN 40 t2)
      let val? : Option Int :=
        match rest with
        | t3 :: _ => pyInt? t3
        | [] => pyInt? (log.data.getD str0x0)
      match val? with
      | none => .error .valueError
      | some val =>
        match pyInt? (log.blockNumber.getD str0x0) with
        | none => .error .valueError
        | some bn =>
          .ok (some { fromAddr := from_addr
                      toAddr := to_addr
                      value := val
                      token := pyLower (log.address.getD strEmpty)
                      txHash := log.transactionHash.getD strEmpty
                      blockNumber := bn })
    else .ok none
  | _ => .ok none

/-- Python bytes.fromhex: pairs of hex digits (none where Python raises;
the whitespace Python tolerates between pairs never occurs here). -/
def hexPairBytes? : List Char → Option (List Nat)
  | [] => some []
  | [_] => none
  | c1 :: c2 :: rest =>
    match hexDigitVal? c1, hexDigitVal? c2, hexPairBytes? rest with
    | some d1, some d2, some bs => some ((d1 * 16 + d2) :: bs)
    | _, _, _ => none

/-- Range check for the second byte of a 3-byte UTF-8 sequence. -/
def utf8Cont2Ok (b b2 : Nat) : Bool :=
  if b == 224 then 160 ≤ b2 && b2 ≤ 191
  else if b == 237 then 128 ≤ b2 && b2 ≤ 159
  else 128 ≤ b2 && b2 ≤ 191

/-- Range check for the second byte of a 4-byte UTF-8 sequence. -/
def utf8Cont3Ok (b b2 : Nat) : Bool :=
  if b == 240 then 144 ≤ b2 && b2 ≤ 191
  else if b == 244 then 128 ≤ b2 && b2 ≤ 143
  else 128 ≤ b2 && b2 ≤ 191

/-- Fuelled UTF-8 decoding step; every step consumes at least one byte,
so fuel equal to the byte count never runs out. -/
def utf8DecodeIgnoreF : Nat → List Nat → List Char
  | 0, _ => []
  | _, [] => []
  | fuel + 1, b :: bs =>
    if b < 128 then Char.ofNat b :: utf8DecodeIgnoreF fuel bs
    else if 194 ≤ b && b ≤ 223 then
      match bs with
      | b2 :: bs2 =>
        if 128 ≤ b2 && b2 ≤ 191 then
          Char.ofNat ((b - 192) * 64 + (b2 - 128)) :: utf8DecodeIgnoreF fuel bs2
        else utf8DecodeIgnoreF fuel (b2 :: bs2)
      | [] => []
    else if 224 ≤ b && b ≤ 239 then
      match bs with
      | b2 :: b3 :: bs3 =>
        if utf8Cont2Ok b b2 && (128 ≤ b3 && b3 ≤ 191) then
          Char.ofNat ((b - 224) * 4096 + (b2 - 128) * 64 + (b3 - 128)) ::
            utf8DecodeIgnoreF fuel bs3
        else utf8DecodeIgnoreF fuel (b2 :: b3 :: bs3)
      | [b2] => utf8DecodeIgnoreF fuel [b2]
      | [] => []
    else if 240 ≤ b && b ≤ 244 then
      match bs with
      | b2 :: b3 :: b4 :: bs4 =>
        if utf8Cont3Ok b b2 && (128 ≤ b3 && b3 ≤ 191) && (128 ≤ b4 && b4 ≤ 191) then
          Char.ofNat ((b - 240) * 262144 + (b2 - 128) * 4096 +
              (b3 - 128) * 64 + (b4 - 128)) :: utf8DecodeIgnoreF fuel bs4
        else utf8DecodeIgnoreF fuel (b2 :: b3 :: b4 :: bs4)
      | [b2, b3] => utf8DecodeIgnoreF fuel [b2, b3]
      | [b2] => utf8DecodeIgnoreF fuel [b2]
      | [] => []
    else utf8DecodeIgnoreF fuel bs

/-- UTF-8 decoding of a byte list, modelling bytes.decode("utf-8",
errors="ignore"): valid sequences decode, malformed lead bytes are
dropped one byte at a time and decoding continues. -/
def utf8DecodeIgnore (bs : List Nat) : List Char :=
  utf8DecodeIgnoreF bs.length bs

/-- get_symbol.  cache is the symbol_cache dict as an association list
(new entries consed to the front, looked up first, which matches dict
update/read semantics here because a key is written at most once).
resp is the environment's answer for this tick's eth_call: the value of
res["result"] when rpc() returned a dict carrying one, none when rpc()
returned None or the result field was missing/null.
Returns the symbol and the updated cache.
The negative slice indices Python would apply for a signed offset word
never occur (the sliced text is hex digits), and are clamped to 0 here. -/
def get_symbol (cache : List (String × String)) (token_addr : String)
    (resp : Option String) : String × List (String × String) :=
  match cache.lookup token_addr with
  | some s => (s, cache)
  | none =>
    let computed : Except PyErr String :=
      match resp with
      | none => .error .valueError
      | some r =>
        if r = strEmpty ∨ r = str0x then .error .valueError
        else
          let hexstr := pyDrop 2 r
          let symHex? : Except PyErr String :=
            if 128 < hexstr.toList.length then
              match pyInt? (pyTake 64 hexstr) with
              | none => .error .valueError
              | some o =>
                let off := o.toNat * 2
                match pyInt? (pySlice hexstr off (off + 64)) with
                | none => .error .valueError
                | some len =>
                  .ok (pySlice hexstr (off + 64) (off + 64 + len.toNat * 2))
            else
              .ok (pyRstrip0 (pyDrop 128 hexstr))
          match symHex? with
          | .error e => .error e
          | .ok sym_hex =>
            match hexPairBytes? sym_hex.toList with
            | none => .error .valueError
            | some bs => .ok (pyStrip (pyStripNul (String.mk (utf8DecodeIgnore bs))))
    match computed with
    | .ok sym =>
      let v := if sym = strEmpty then strUNK else sym
      (v, (token_addr, v) :: cache)
    | .error _ => (strUNK, (token_addr, strUNK) :: cache)

/-- Payload queued for the Zapier webhook.  amountRaw keeps the decoded
integer value; the float rendering round(value / 1e18, 6) is display-only
and is not modelled (floating point). -/
structure Payload where
  direction : String
  symbol : String
  amountRaw : Int
  txHash : String
  block : Int
  timestamp : Int
  fromAddr : String
  toAddr : String
  token : String
deriving Repr, DecidableEq

/-- One iteration of the zapier_worker consumer loop on a non-empty-or-empty
queue.  The outcome input is what requests.post produced for this attempt:
.ok status for any HTTP response, .error () for a request-level exception.
Returns the queue after the step and the payload discarded as delivered
(removed without requeue), if any. -/
def zapierStep (q : List Payload) (outcome : Except Unit Nat) :
    List Payload × Option Payload :=
  match q with
  | [] => ([], none)
  | p :: rest =>
    match outcome with
    | .ok _ => (rest, some p)
    | .error _ => (p :: rest, none)

/-- Iterated consumer steps, one environment outcome per step; returns the
final queue and the payloads removed, in removal order. -/
def zapierRun (q : List Payload) : List (Except Unit Nat) → List Payload × List Payload
  | [] => (q, [])
  | o :: os =>
    let s := zapierStep q o
    let r := zapierRun s.1 os
    (r.1, s.2.toList ++ r.2)

/-- Number of outcomes that are HTTP responses (no exception). -/
def countOk (os : List (Except Unit Nat)) : Nat :=
  os.countP (fun o => match o with | .ok _ => true | .error _ => false)

/-- One probe measurement from check_rpc: the node, the height
get_latest_block returned (0 when the call failed) and the measured
round-trip latency.  Latency is modelled as a Nat tick count; only its
ordering matters. -/
structure Probe where
  node : String
  blk : Int
  latency : Nat
deriving Repr, DecidableEq

/-- Python max over the filtered results with key (blk, -latency):
keep the current candidate unless a later one has a strictly greater key
(first maximum wins, as in Python). -/
def pyMaxProbe (first : Probe) (rest : List Probe) : Probe :=
  rest.foldl
    (fun acc q =>
      if acc.blk < q.blk ∨ (acc.blk = q.blk ∧ q.latency < acc.latency) then q
      else acc)
    first

/-- get_best_rpc.  rpcs is the RPCS list, probes the per-node measurements
in submission order.  .error () models the IndexError RPCS[0] raises when
the list is empty and no node reported a positive height. -/
def get_best_rpc (rpcs : List String) (probes : List Probe) :
    Except Unit (String × Int) :=
  let results := probes.filter (fun p => 0 < p.blk)
  match results with
  | [] =>
    match rpcs with
    | [] => .error ()
    | r :: _ => .ok (r, 0)
  | p :: ps =>
    let best := pyMaxProbe p ps
    .ok (best.node, best.blk)

/-- Decidable equality for Except values (used to evaluate closed
statements about tick outcomes). -/
instance {ε α : Type} [DecidableEq ε] [DecidableEq α] : DecidableEq (Except ε α) :=
  fun x y =>
    match x, y with
    | .ok a, .ok b =>
      if h : a = b then .isTrue (by rw [h])
      else .isFalse (fun hc => h (Except.ok.inj hc))
    | .error a, .error b =>
      if h : a = b then .isTrue (by rw [h])
      else .isFalse (fun hc => h (Except.error.inj hc))
    | .ok _, .error _ => .isFalse (fun hc => Except.noConfusion hc)
    | .error _, .ok _ => .isFalse (fun hc => Except.noConfusion hc)

/-- Fuelled chunk loop; each iteration advances current by at least one
block, so fuel equal to the block span never runs out. -/
def chunkRangesF : Nat → Int → Int → List (Int × Int)
  | 0, _, _ => []
  | fuel + 1, current, endB =>
    if current ≤ endB then
      let batch_end :=
        if current + BATCH_SIZE - 1 ≤ endB then current + BATCH_SIZE - 1 else endB
      (current, batch_end) :: chunkRangesF fuel (batch_end + 1) endB
    else []

/-- Chunk bounds of the while loop in get_transfer_logs_batch: from
current, batches of BATCH_SIZE blocks, the last one clipped to endB. -/
def chunkRanges (current endB : Int) : List (Int × Int) :=
  chunkRangesF (endB + 1 - current).toNat current endB

/-- get_transfer_logs_batch: fetch each chunk; a chunk whose rpc() call
ultimately failed (environment answer none) contributes no logs and is
only warned about; successful chunks are concatenated in order. -/
def get_transfer_logs_batch (startB endB : Int)
    (chunkResp : Int × Int → Option (List RawLog)) : List RawLog :=
  ((chunkRanges startB endB).map (fun c => (chunkResp c).getD [])).flatten

/-- Mutable state shared by the per-log processing in the main loop:
the processed_txs deque, the symbol_cache, and the zapier_queue. -/
structure ProcState where
  processedTxs : List String
  cache : List (String × String)
  queue : List Payload
deriving Repr, DecidableEq

/-- deque(maxlen=1000).append: the oldest entry is evicted when the deque
is full. -/
def dequeAppend (d : List String) (x : String) : List String :=
  let d2 := d ++ [x]
  if 1000 < d2.length then d2.drop (d2.length - 1000) else d2

/-- The body of the for-lg-in-logs loop in main (lines 249-286): decode,
filter by watched address, dedup, resolve the symbol, build and queue the
payload.  An exception escaping decode_log is propagated with the state
at the point of the raise (.error).  symResp supplies the eth_call answer
get_symbol would see for a token; now is the int(time.time()) reading. -/
def processLog (watch : String) (symResp : String → Option String) (now : Int)
    (st : ProcState) (lg : RawLog) : Except ProcState (ProcState × Option Payload) :=
  match decode_log lg with
  | .error _ => .error st
  | .ok none => .ok (st, none)
  | .ok (some d) =>
    if watch ≠ d.fromAddr ∧ watch ≠ d.toAddr then .ok (st, none)
    else if st.processedTxs.contains d.txHash then .ok (st, none)
    else
      let txs := dequeAppend st.processedTxs d.txHash
      let sres := get_symbol st.cache d.token (symResp d.token)
      let direction := if watch = d.toAddr then strBUY else strSELL
      let payload : Payload :=
        { direction := direction
          symbol := sres.1
          amountRaw := d.value
          txHash := d.txHash
          block := d.blockNumber
          timestamp := now
          fromAddr := d.fromAddr
          toAddr := d.toAddr
          token := d.token }
      .ok ({ processedTxs := txs, cache := sres.2, queue := st.queue ++ [payload] },
           some payload)

/-- The whole for loop over a batch of logs; an exception escaping any
decode aborts the remaining logs, carrying the state reached so far. -/
def processLogs (watch : String) (symResp : String → Option String) (now : Int) :
    ProcState → List RawLog → Except ProcState ProcState
  | st, [] => .ok st
  | st, lg :: rest =>
    match processLog watch symResp now st lg with
    | .error s => .error s
    | .ok r => processLogs watch symResp now r.1 rest

/-- The locals of main that persist across iterations of the while loop.
blocksBehind models the blocks_behind local: none before its first
assignment (referencing it then raises UnboundLocalError). -/
structure LoopState where
  node : String
  lastBlock : Int
  consecutiveErrors : Nat
  blocksBehind : Option Int
  proc : ProcState
deriving Repr, DecidableEq

/-- Which sleep call a tick ends with (durations are wall-clock floats;
only the selected branch is modelled). -/
inductive SleepKind
  | fast
  | base
  | jittered
  | retryShort
  | afterError
deriving Repr, DecidableEq

/-- Environment of one tick: whether the 30-second periodic re-selection
timer fired, probe measurements for a get_best_rpc call made from the
normal path (probes) or from an error path (probes2), the eth_blockNumber
answer (the result string, or none when rpc() gave up), the per-chunk
eth_getLogs answers, the per-token eth_call answers, and the clock. -/
structure TickEnv where
  periodicCheck : Bool
  probes : List Probe
  probes2 : List Probe
  latestResult : Option String
  chunkResp : Int × Int → Option (List RawLog)
  symResp : String → Option String
  now : Int

/-- Observable facts about one tick, recorded for the theorems: the
inclusive block range handed to get_transfer_logs_batch, the sleep branch
the tick ended with, and whether the per-tick exception handler ran. -/
structure TickObs where
  range : Option (Int × Int) := none
  sleep : Option SleepKind := none
  raised : Bool := false
deriving Repr, DecidableEq

/-- Dynamic sleep selection (lines 293-301): reads blocks_behind; none
models the UnboundLocalError raise, which carries the current state to
the handler. -/
def sleepStage (st : LoopState) (obs : TickObs) :
    Except (LoopState × TickObs) (LoopState × TickObs) :=
  match st.blocksBehind with
  | none => .error (st, obs)
  | some bb =>
    let k := if 5 < bb then SleepKind.fast
             else if 1 < bb then SleepKind.base
             else SleepKind.jittered
    .ok (st, { obs with sleep := some k })

/-- The latest == 0 branch of the try suite (lines 222-228): count the
transient failure, re-select after more than 3 consecutive failures,
sleep 1 s and continue. -/
def zeroHeightStep (rpcs : List String) (s1 : LoopState) (env : TickEnv) :
    Except (LoopState × TickObs) (LoopState × TickObs) :=
  let ce := s1.consecutiveErrors + 1
  if 3 < ce then
    match get_best_rpc rpcs env.probes2 with
    | .error _ => .error ({ s1 with consecutiveErrors := ce }, {})
    | .ok r =>
      .ok ({ s1 with node := r.1, consecutiveErrors := 0 },
           { sleep := some SleepKind.retryShort })
  else
    .ok ({ s1 with consecutiveErrors := ce },
         { sleep := some SleepKind.retryShort })

/-- The latest > last_block branch of the try suite (lines 233-291):
record blocks_behind, apply the catch-up jump, fetch and process the
range, advance lastBlock, then pick the dynamic sleep. -/
def newBlocksStep (s2 : LoopState) (env : TickEnv) (latest : Int) :
    Except (LoopState × TickObs) (LoopState × TickObs) :=
  let bb := latest - s2.lastBlock
  let s3 := { s2 with blocksBehind := some bb }
  let s4 := if MAX_BLOCK_GAP < bb then { s3 with lastBlock := latest - 2 } else s3
  let pfrom := s4.lastBlock + 1
  let pto := latest
  let logs := get_transfer_logs_batch pfrom pto env.chunkResp
  let obs1 : TickObs := { range := some (pfrom, pto) }
  match processLogs WATCH_ADDRESS env.symResp env.now s4.proc logs with
  | .error pSt => .error ({ s4 with proc := pSt }, obs1)
  | .ok pSt =>
    let s5 := { s4 with proc := pSt, lastBlock := latest }
    sleepStage s5 obs1

/-- Dispatch on the height gap (lines 222-301): the transient-failure
branch, the new-blocks branch, or no new range plus the dynamic sleep. -/
def heightDispatch (rpcs : List String) (s1 : LoopState) (env : TickEnv)
    (latest : Int) : Except (LoopState × TickObs) (LoopState × TickObs) :=
  if latest = 0 then zeroHeightStep rpcs s1 env
  else
    let s2 := { s1 with consecutiveErrors := 0 }
    if s2.lastBlock < latest then newBlocksStep s2 env latest
    else sleepStage s2 {}

/-- latest = get_latest_block(node) and onwards: rpc() returning None
yields 0, a non-hex result string raises ValueError. -/
def latestStep (rpcs : List String) (s1 : LoopState) (env : TickEnv) :
    Except (LoopState × TickObs) (LoopState × TickObs) :=
  match env.latestResult with
  | none => heightDispatch rpcs s1 env 0
  | some str =>
    match pyInt? str with
    | none => .error (s1, {})
    | some v => heightDispatch rpcs s1 env v

/-- The try suite of one while-loop iteration of main (lines 212-301):
the periodic re-selection, then the height query and its dispatch.
.error carries the state and observations at the point where an exception
escaped to the per-tick handler. -/
def tickBody (rpcs : List String) (s : LoopState) (env : TickEnv) :
    Except (LoopState × TickObs) (LoopState × TickObs) :=
  if env.periodicCheck then
    match get_best_rpc rpcs env.probes with
    | .error _ => .error (s, {})
    | .ok r => latestStep rpcs { s with node := r.1 } env
  else latestStep rpcs s env

/-- One full while-loop iteration including the except handler
(lines 303-313).  tick itself returns .error () only when the handler
dies in turn (get_best_rpc raising IndexError on an empty RPCS list),
which kills the process. -/
def tick (rpcs : List String) (s : LoopState) (env : TickEnv) :
    Except Unit (LoopState × TickObs) :=
  match tickBody rpcs s env with
  | .ok r => .ok r
  | .error e =>
    let ce := e.1.consecutiveErrors + 1
    if 5 < ce then
      match get_best_rpc rpcs env.probes2 with
      | .error _ => .error ()
      | .ok r =>
        .ok ({ e.1 with node := r.1, lastBlock := r.2, consecutiveErrors := 0 },
             { e.2 with raised := true, sleep := some SleepKind.afterError })
    else
      .ok ({ e.1 with consecutiveErrors := ce },
           { e.2 with raised := true, sleep := some SleepKind.afterError })

/-- Startup (lines 204-209): node and last_block both come from the
initial get_best_rpc call; the other locals start fresh. -/
def mainInit (rpcs : List String) (probes : List Probe) : Except Unit LoopState :=
  match get_best_rpc rpcs probes with
  | .error _ => .error ()
  | .ok r =>
    .ok { node := r.1, lastBlock := r.2, consecutiveErrors := 0,
          blocksBehind := none, proc := ⟨[], [], []⟩ }

/-- Iterated ticks, used by the concrete execution traces. -/
def runTicks (rpcs : List String) (s : LoopState) : List TickEnv → Except Unit LoopState
  | [] => .ok s
  | e :: es =>
    match tick rpcs s e with
    | .error _ => .error ()
    | .ok r => runTicks rpcs r.1 es

/-- A 32-byte topic whose low 20 bytes are the watched address. -/
def exTopicWatch : String :=
  "0x00000000000000000000000007c249fa3902fd243ad0fa58047be8a3262b7104"

/-- A 32-byte topic for a counterparty address ending in aa. -/
def exTopicOther : String :=
  "0x00000000000000000000000000000000000000000000000000000000000000aa"

/-- A well-formed Transfer log from the watched address. -/
def exGoodLog : RawLog :=
  { topics := some [ERC20_SIG, exTopicWatch, exTopicOther]
    data := some ("0x3e8")
    address := some ("0xtok1")
    transactionHash := some ("0xhash1")
    blockNumber := some ("0x10") }

/-- A Transfer-signature log whose data payload is not valid hex. -/
def exBadDataLog : RawLog :=
  { topics := some [ERC20_SIG, exTopicWatch, exTopicOther]
    data := some ("0xzz")
    address := some ("0xtok1")
    transactionHash := some ("0xhash2")
    blockNumber := some ("0x10") }

/-- An environment with no eth_call answers. -/
def noSymResp : String → Option String := fun _ => none

/-- Fresh shared state. -/
def emptyProc : ProcState := ⟨[], [], []⟩

/-- Key order of get_best_rpc: b is at least as good as q
(higher block, or same block and no worse latency). -/
def geKey (b q : Probe) : Prop :=
  q.blk < b.blk ∨ (q.blk = b.blk ∧ b.latency ≤ q.latency)

/-- A symbol() return using the short/static encoding: the bytes32 word
for MKR (3 ASCII bytes then zero padding), 64 hex characters of payload. -/
def exStaticSymbolResult : String :=
  "0x4d4b520000000000000000000000000000000000000000000000000000000000"

/-- The token address used in the C7 evaluation. -/
def exToken7 : String := "0xtok7"

/-- The symbol the static slot of exStaticSymbolResult spells. -/
def strMKR : String := "MKR"

/-- The payload exGoodLog produces. -/
def exPayload : Payload :=
  { direction := strSELL
    symbol := strUNK
    amountRaw := 1000
    txHash := "0xhash1"
    block := 16
    timestamp := 7
    fromAddr := "0x07c249fa3902fd243ad0fa58047be8a3262b7104"
    toAddr := "0x00000000000000000000000000000000000000aa"
    token := "0xtok1" }

/-- The shared state after processing exGoodLog from fresh state. -/
def exProcOut : ProcState :=
  ⟨[exPayload.txHash], [(exPayload.token, strUNK)], [exPayload]⟩

/-- First configured endpoint. -/
def exNodeA : String := "http://a/x"

/-- Second configured endpoint. -/
def exNodeB : String := "http://b/x"

/-- Hex literal for block height 100. -/
def exHex100 : String := "0x64"

/-- Hex literal for block height 150. -/
def exHex150 : String := "0x96"

/-- A single-endpoint RPCS configuration. -/
def exRpcs1 : List String := [exNodeA]

/-- A two-endpoint RPCS configuration. -/
def exRpcs2 : List String := [exNodeA, exNodeB]

/-- A quiet-tick environment: no periodic check, height 100, no logs. -/
def exEnvQuiet : TickEnv :=
  { periodicCheck := false, probes := [], probes2 := []
    latestResult := some exHex100
    chunkResp := fun _ => some [], symResp := noSymResp, now := 0 }

/-- A catch-up environment: height 150, no periodic check, empty chunks. -/
def exEnvGap : TickEnv :=
  { periodicCheck := false, probes := [], probes2 := []
    latestResult := some exHex150
    chunkResp := fun _ => some [], symResp := noSymResp, now := 0 }

/-- State at lastBlock 100 with a previously assigned blocks_behind. -/
def exStateQuiet : LoopState := LoopState.mk exNodeA 100 0 (some 1) emptyProc

/-- State at lastBlock 100 before any blocks_behind assignment. -/
def exStateGap : LoopState := LoopState.mk exNodeA 100 0 none emptyProc

/-- An environment whose periodic probe run reports no positive height. -/
def cxEnv5 : TickEnv :=
  { periodicCheck := true
    probes := [Probe.mk exNodeA 0 1, Probe.mk exNodeB 0 1]
    probes2 := []
    latestResult := some exHex100
    chunkResp := fun _ => some [], symResp := noSymResp, now := 0 }

/-- A state whose active endpoint is the second configured one. -/
def cxState5 : LoopState := LoopState.mk exNodeB 200 0 (some 1) emptyProc

/-- The loop state an iteration outcome carries (both on normal
completion and at a raise). -/
def stateOf (res : Except (LoopState × TickObs) (LoopState × TickObs)) : LoopState :=
  match res with
  | .ok r => r.1
  | .error r => r.1

/-- The probe run that starts the counterexample trace at height 100. -/
def c1Probes : List Probe := [Probe.mk exNodeA 100 1]

/-- An environment whose eth_blockNumber answer is not parseable hex, so
get_latest_block raises ValueError inside the try suite; the error-path
re-selection then probes nothing successfully. -/
def c1EnvBad : TickEnv :=
  { periodicCheck := false, probes := [], probes2 := []
    latestResult := some ("zz")
    chunkResp := fun _ => some [], symResp := noSymResp, now := 0 }

/-- The startup state of the counterexample trace. -/
def c1Start : LoopState := LoopState.mk exNodeA 100 0 none emptyProc

/-! ## Theorems settling the claims, with their helper lemmas -/

/-- A successful int(s, 16) parse of a string that does not begin with a
minus sign is non-negative. -/
theorem pyInt?_nonneg (s : String) (v : Int) (h : pyInt? s = some v)
    (hd : s.toList.head? ≠ some ('-')) : 0 ≤ v := by
  unfold pyInt? at h
  simp only [if_neg hd] at h
  repeat' split at h
  all_goals first
    | exact absurd h (by simp only [reduceCtorEq, not_false_eq_true])
    | (rw [Option.some_inj] at h; omega)

/-- C2: a log whose first topic is the Transfer signature and which has
exactly three topics decodes to an event whose from/to are the low 20
bytes (last 40 hex characters, lowercased, 0x-prefixed) of topics 1 and 2
and whose value is parsed from the data payload (non-negative when the
payload has no sign); with a fourth topic present the value is parsed
from it instead; a log with only two topics, or a non-matching first
topic, yields no event. -/
theorem C2_decode_log_correct :
    (∀ (lg : RawLog) (t1 t2 : String) (v bn : Int),
        lg.topics = some [ERC20_SIG, t1, t2] →
        pyInt? (lg.data.getD str0x0) = some v →
        pyInt? (lg.blockNumber.getD str0x0) = some bn →
        decode_log lg =
          .ok (some { fromAddr := str0x ++ pyLower (pyLastN 40 t1)
                      toAddr := str0x ++ pyLower (pyLastN 40 t2)
                      value := v
                      token := pyLower (lg.address.getD strEmpty)
                      txHash := lg.transactionHash.getD strEmpty
                      blockNumber := bn }) ∧
          ((lg.data.getD str0x0).toList.head? ≠ some ('-') → 0 ≤ v)) ∧
    (∀ (lg : RawLog) (t1 t2 t3 : String) (ts : List String) (v bn : Int),
        lg.topics = some (ERC20_SIG :: t1 :: t2 :: t3 :: ts) →
        pyInt? t3 = some v →
        pyInt? (lg.blockNumber.getD str0x0) = some bn →
        decode_log lg =
          .ok (some { fromAddr := str0x ++ pyLower (pyLastN 40 t1)
                      toAddr := str0x ++ pyLower (pyLastN 40 t2)
                      value := v
                      token := pyLower (lg.address.getD strEmpty)
                      txHash := lg.transactionHash.getD strEmpty
                      blockNumber := bn })) ∧
    (∀ (lg : RawLog) (ta tb : String),
        lg.topics = some [ta, tb] → decode_log lg = .ok none) ∧
    (∀ (lg : RawLog) (t0 : String) (ts : List String),
        lg.topics = some (t0 :: ts) → t0 ≠ ERC20_SIG → decode_log lg = .ok none) := by
  refine ⟨?_, ?_, ?_, ?_⟩
  · intro lg t1 t2 v bn htop hdata hbn
    constructor
    · simp [decode_log, htop, hdata, hbn]
    · intro hd
      exact pyInt?_nonneg _ _ hdata hd
  · intro lg t1 t2 t3 ts v bn htop hval hbn
    simp [decode_log, htop, hval, hbn]
  · intro lg ta tb htop
    simp [decode_log, htop]
  · intro lg t0 ts htop h0
    cases ts with
    | nil => simp [decode_log, htop]
    | cons a ts2 =>
      cases ts2 with
      | nil => simp [decode_log, htop]
      | cons b ts3 => simp [decode_log, htop, h0]

/-- Witness for C2: the three-topic and two-topic cases evaluated on
concrete logs. -/
theorem C2_decode_log_correct_witness :
    (decode_log exGoodLog =
      .ok (some { fromAddr := str0x ++ pyLower (pyLastN 40 exTopicWatch)
                  toAddr := str0x ++ pyLower (pyLastN 40 exTopicOther)
                  value := 1000
                  token := pyLower (exGoodLog.address.getD strEmpty)
                  txHash := exGoodLog.transactionHash.getD strEmpty
                  blockNumber := 16 }) ∧
      ((exGoodLog.data.getD str0x0).toList.head? ≠ some ('-') → (0 : Int) ≤ 1000)) ∧
    decode_log { exGoodLog with topics := some [ERC20_SIG, exTopicWatch] } = .ok none :=
  ⟨C2_decode_log_correct.1 exGoodLog exTopicWatch exTopicOther 1000 16 rfl (by decide)
      (by decide),
   C2_decode_log_correct.2.2.1 _ ERC20_SIG exTopicWatch rfl⟩

theorem geKey_refl (p : Probe) : geKey p p := by
  simp [geKey]

theorem geKey_trans {a b c : Probe} (h1 : geKey a b) (h2 : geKey b c) : geKey a c := by
  simp only [geKey] at *
  omega

theorem pyMaxProbe_mem (p : Probe) (ps : List Probe) :
    pyMaxProbe p ps = p ∨ pyMaxProbe p ps ∈ ps := by
  induction ps generalizing p with
  | nil => left; rfl
  | cons q ps ih =>
    have hstep : pyMaxProbe p (q :: ps) =
        pyMaxProbe (if p.blk < q.blk ∨ (p.blk = q.blk ∧ q.latency < p.latency) then q else p)
          ps := rfl
    rw [hstep]
    rcases ih (if p.blk < q.blk ∨ (p.blk = q.blk ∧ q.latency < p.latency) then q else p) with
        h | h
    · rw [h]
      split
      · right; exact List.mem_cons_self _ _
      · left; rfl
    · right; exact List.mem_cons_of_mem _ h

theorem pyMaxProbe_ge (p : Probe) (ps : List Probe) :
    ∀ q ∈ p :: ps, geKey (pyMaxProbe p ps) q := by
  induction ps generalizing p with
  | nil =>
    intro q hq
    rw [List.mem_singleton] at hq
    rw [hq]
    exact geKey_refl _
  | cons r ps ih =>
    intro q hq
    have hstep : pyMaxProbe p (r :: ps) =
        pyMaxProbe (if p.blk < r.blk ∨ (p.blk = r.blk ∧ r.latency < p.latency) then r else p)
          ps := rfl
    have hbase : geKey (if p.blk < r.blk ∨ (p.blk = r.blk ∧ r.latency < p.latency) then r else p)
        p ∧
        geKey (if p.blk < r.blk ∨ (p.blk = r.blk ∧ r.latency < p.latency) then r else p) r := by
      split
      · constructor
        · simp only [geKey]; omega
        · exact geKey_refl _
      · constructor
        · exact geKey_refl _
        · simp only [geKey]
          omega
    rw [hstep]
    rcases List.mem_cons.mp hq with h | h
    · rw [h]
      exact geKey_trans
        (ih _ _ (List.mem_cons_self _ _)) hbase.1
    · rcases List.mem_cons.mp h with h2 | h2
      · rw [h2]
        exact geKey_trans (ih _ _ (List.mem_cons_self _ _)) hbase.2
      · exact ih _ _ (List.mem_cons_of_mem _ h2)

/-- C4: whenever some probe reports a positive height, get_best_rpc
returns a probed endpoint of positive height such that every other
positive-height probe has a strictly smaller height, or the same height
and a latency no smaller. -/
theorem C4_selection_max_height_min_latency (rpcs : List String) (probes : List Probe)
    (h : ∃ p ∈ probes, 0 < p.blk) :
    ∃ best ∈ probes, 0 < best.blk ∧
      get_best_rpc rpcs probes = .ok (best.node, best.blk) ∧
      ∀ q ∈ probes, 0 < q.blk →
        q.blk < best.blk ∨ (q.blk = best.blk ∧ best.latency ≤ q.latency) := by
  rcases h with ⟨p0, hp0, hpos0⟩
  have hmem0 : p0 ∈ probes.filter (fun p => 0 < p.blk) := by
    rw [List.mem_filter]
    exact ⟨hp0, by simpa using hpos0⟩
  rcases hres : probes.filter (fun p => 0 < p.blk) with _ | ⟨p, ps⟩
  · rw [hres] at hmem0
    exact absurd hmem0 (List.not_mem_nil _)
  · refine ⟨pyMaxProbe p ps, ?_, ?_, ?_, ?_⟩
    · have : pyMaxProbe p ps ∈ probes.filter (fun p => 0 < p.blk) := by
        rw [hres]
        rcases pyMaxProbe_mem p ps with h | h
        · rw [h]; exact List.mem_cons_self _ _
        · exact List.mem_cons_of_mem _ h
      exact (List.mem_filter.mp this).1
    · have : pyMaxProbe p ps ∈ probes.filter (fun p => 0 < p.blk) := by
        rw [hres]
        rcases pyMaxProbe_mem p ps with h | h
        · rw [h]; exact List.mem_cons_self _ _
        · exact List.mem_cons_of_mem _ h
      simpa using (List.mem_filter.mp this).2
    · unfold get_best_rpc
      rw [hres]
    · intro q hq hqpos
      have hqf : q ∈ probes.filter (fun p => 0 < p.blk) := by
        rw [List.mem_filter]
        exact ⟨hq, by simpa using hqpos⟩
      rw [hres] at hqf
      exact pyMaxProbe_ge p ps q hqf

/-- Witness for C4: the spec's own example — A at height 100 latency 50,
B at height 105 latency 10 — selects B. -/
theorem C4_selection_witness :
    (∃ p ∈ [Probe.mk (strEmpty ++ "A") 100 50, Probe.mk (strEmpty ++ "B") 105 10],
        0 < p.blk) ∧
    ∃ best ∈ [Probe.mk (strEmpty ++ "A") 100 50, Probe.mk (strEmpty ++ "B") 105 10],
      0 < best.blk ∧
      get_best_rpc [] [Probe.mk (strEmpty ++ "A") 100 50, Probe.mk (strEmpty ++ "B") 105 10] =
        .ok (best.node, best.blk) ∧
      ∀ q ∈ [Probe.mk (strEmpty ++ "A") 100 50, Probe.mk (strEmpty ++ "B") 105 10],
        0 < q.blk → q.blk < best.blk ∨ (q.blk = best.blk ∧ best.latency ≤ q.latency) :=
  ⟨by decide,
   C4_selection_max_height_min_latency []
     [Probe.mk (strEmpty ++ "A") 100 50, Probe.mk (strEmpty ++ "B") 105 10] (by decide)⟩

/-- Counterexample to C6: a Transfer-signature log with three topics whose
data payload is not numeric makes decode_log raise (not "no event"), and
the raise aborts the whole batch: the following well-formed watched-address
log is not processed, although alone it would queue a payload. -/
theorem C6_counterexample_decode_raises :
    decode_log exBadDataLog = .error PyErr.valueError ∧
    processLogs WATCH_ADDRESS noSymResp 0 emptyProc [exBadDataLog, exGoodLog] =
      .error emptyProc ∧
    (processLogs WATCH_ADDRESS noSymResp 0 emptyProc [exGoodLog]).map
      (fun st => st.queue.length) = .ok 1 := by
  refine ⟨by decide, by decide, by decide⟩

/-- C6 as amended: decoding is total (yields "no event") for every log
that fails the shape checks — no topics, a non-matching first topic, or
only two topics — and such logs are skipped with the batch continuing;
but a log passing the shape checks whose value word or block number does
not parse as hex raises, and the raise aborts the rest of the batch. -/
theorem C6_amended_decode_totality :
    (∀ lg : RawLog, lg.topics.getD [] = [] → decode_log lg = .ok none) ∧
    (∀ (lg : RawLog) (t0 : String) (ts : List String),
        lg.topics.getD [] = t0 :: ts → t0 ≠ ERC20_SIG → decode_log lg = .ok none) ∧
    (∀ (lg : RawLog) (ta tb : String),
        lg.topics.getD [] = [ta, tb] → decode_log lg = .ok none) ∧
    (∀ (watch : String) (symResp : String → Option String) (now : Int)
        (st : ProcState) (lg : RawLog) (rest : List RawLog),
        decode_log lg = .ok none →
        processLogs watch symResp now st (lg :: rest) =
          processLogs watch symResp now st rest) ∧
    (∀ (watch : String) (symResp : String → Option String) (now : Int)
        (st : ProcState) (lg : RawLog) (e : PyErr) (rest : List RawLog),
        decode_log lg = .error e →
        processLogs watch symResp now st (lg :: rest) = .error st) := by
  refine ⟨?_, ?_, ?_, ?_, ?_⟩
  · intro lg htop
    simp [decode_log, htop]
  · intro lg t0 ts htop h0
    cases ts with
    | nil => simp [decode_log, htop]
    | cons a ts2 =>
      cases ts2 with
      | nil => simp [decode_log, htop]
      | cons b ts3 => simp [decode_log, htop, h0]
  · intro lg ta tb htop
    simp [decode_log, htop]
  · intro watch symResp now st lg rest hdec
    simp [processLogs, processLog, hdec]
  · intro watch symResp now st lg e rest hdec
    simp [processLogs, processLog, hdec]

/-- Witness for C6 as amended: a wrong-signature log is skipped and the
batch continues; the bad-data log aborts it. -/
theorem C6_amended_witness :
    decode_log { exGoodLog with topics := some [str0x, exTopicWatch, exTopicOther] } =
      .ok none ∧
    processLogs WATCH_ADDRESS noSymResp 0 emptyProc
        [{ exGoodLog with topics := some [str0x, exTopicWatch, exTopicOther] }] =
      processLogs WATCH_ADDRESS noSymResp 0 emptyProc [] ∧
    processLogs WATCH_ADDRESS noSymResp 0 emptyProc [exBadDataLog] = .error emptyProc := by
  have h1 := C6_amended_decode_totality.2.1
    { exGoodLog with topics := some [str0x, exTopicWatch, exTopicOther] }
    str0x [exTopicWatch, exTopicOther] rfl (by decide)
  refine ⟨h1, ?_, ?_⟩
  · exact C6_amended_decode_totality.2.2.2.1 WATCH_ADDRESS noSymResp 0 emptyProc _ [] h1
  · exact C6_amended_decode_totality.2.2.2.2 WATCH_ADDRESS noSymResp 0 emptyProc
      exBadDataLog PyErr.valueError [] (by decide)

/-- C7 (code bug): on a short/static symbol() return the resolver takes
hexstr[128:] of a payload of at most 128 hex characters, which is always
empty, so it returns and caches the sentinel "UNK" instead of the slot's
string — here the payload's leading bytes decode to "MKR" under this
file's own byte and text decoding. -/
theorem C7_static_symbol_returns_sentinel :
    (pyDrop 2 exStaticSymbolResult).toList.length = 64 ∧
    pyRstrip0 (pyDrop 128 (pyDrop 2 exStaticSymbolResult)) = strEmpty ∧
    get_symbol [] exToken7 (some exStaticSymbolResult) =
      (strUNK, [(exToken7, strUNK)]) ∧
    (hexPairBytes? (pyDrop 2 exStaticSymbolResult).toList).map
      (fun bs => pyStrip (pyStripNul (String.mk (utf8DecodeIgnore bs)))) =
      some strMKR := by
  refine ⟨by decide, by decide, by decide, by decide⟩

/-- C8: a consumer step on a non-empty queue removes the head and never
retries it when the POST returned any HTTP response (any status code),
re-inserts it at the head leaving the queue unchanged when the POST
raised; consequently, over any sequence of outcomes, the payloads
removed are exactly the first (number of response outcomes) payloads of
the queue, in FIFO order. -/
theorem C8_delivery_queue_step :
    (∀ (p : Payload) (rest : List Payload) (code : Nat),
        zapierStep (p :: rest) (.ok code) = (rest, some p)) ∧
    (∀ (p : Payload) (rest : List Payload),
        zapierStep (p :: rest) (.error ()) = (p :: rest, none)) ∧
    (∀ (q : List Payload) (os : List (Except Unit Nat)),
        (zapierRun q os).2 = q.take (min (countOk os) q.length)) := by
  refine ⟨fun p rest code => rfl, fun p rest => rfl, ?_⟩
  intro q os
  induction os generalizing q with
  | nil => simp [zapierRun, countOk]
  | cons o os ih =>
    cases q with
    | nil =>
      simp only [zapierRun, zapierStep]
      rw [ih]
      simp
    | cons p rest =>
      cases o with
      | ok code =>
        simp only [zapierRun, zapierStep]
        rw [ih]
        have hc : countOk (Except.ok code :: os) = countOk os + 1 := by
          simp [countOk, List.countP_cons]
        rw [hc]
        simp [Nat.succ_min_succ, Option.toList]
      | error u =>
        simp only [zapierRun, zapierStep]
        rw [ih]
        have hc : countOk (Except.error u :: os) = countOk os := by
          simp [countOk, List.countP_cons]
        rw [hc]
        simp [Option.toList]

/-- C10: every payload queued for delivery involves the watched address as
its from or to, and its direction is BUY exactly when the watched address
is the to address, SELL otherwise. -/
theorem C10_payload_direction (watch : String) (symResp : String → Option String)
    (now : Int) (st st2 : ProcState) (lg : RawLog) (p : Payload)
    (h : processLog watch symResp now st lg = .ok (st2, some p)) :
    (watch = p.fromAddr ∨ watch = p.toAddr) ∧
    (p.direction = strBUY ↔ watch = p.toAddr) ∧
    (watch ≠ p.toAddr → p.direction = strSELL) := by
  unfold processLog at h
  split at h
  · exact absurd h (by simp)
  · exact absurd h (by simp)
  · rename_i d _
    split at h
    · exact absurd h (by simp)
    · split at h
      · exact absurd h (by simp)
      · rename_i haddr _
        rw [Except.ok.injEq, Prod.mk.injEq, Option.some_inj] at h
        obtain ⟨-, hp⟩ := h
        subst hp
        rw [not_and_or, not_ne_iff, not_ne_iff] at haddr
        refine ⟨haddr, ?_, ?_⟩
        · show (if watch = d.toAddr then strBUY else strSELL) = strBUY ↔ watch = d.toAddr
          by_cases hto : watch = d.toAddr
          · simp [hto]
          · rw [if_neg hto]
            constructor
            · intro hdir
              exact absurd hdir (by decide)
            · intro hto2
              exact absurd hto2 hto
        · intro hne
          show (if watch = d.toAddr then strBUY else strSELL) = strSELL
          rw [if_neg hne]

/-- Witness for C10: the concrete watched-address log yields a SELL
payload whose from address is the watched address. -/
theorem C10_payload_direction_witness :
    (WATCH_ADDRESS = exPayload.fromAddr ∨ WATCH_ADDRESS = exPayload.toAddr) ∧
    (exPayload.direction = strBUY ↔ WATCH_ADDRESS = exPayload.toAddr) ∧
    (WATCH_ADDRESS ≠ exPayload.toAddr → exPayload.direction = strSELL) :=
  C10_payload_direction WATCH_ADDRESS noSymResp 7 emptyProc exProcOut exGoodLog exPayload
    (by decide)

/-- get_best_rpc never raises when the endpoint list is non-empty. -/
theorem get_best_rpc_isOk (r : String) (rs : List String) (probes : List Probe) :
    ∃ n b, get_best_rpc (r :: rs) probes = .ok (n, b) := by
  cases hf : probes.filter (fun p => 0 < p.blk) with
  | nil => exact ⟨r, 0, by simp [get_best_rpc, hf]⟩
  | cons p ps =>
    exact ⟨(pyMaxProbe p ps).node, (pyMaxProbe p ps).blk, by simp [get_best_rpc, hf]⟩

/-- C9: on a tick with no new blocks (latest parses, is nonzero, and does
not exceed lastBlock) the dynamic sleep reads blocks_behind, which such a
tick never assigns: if it was never assigned the tick ends in the
exception handler (UnboundLocalError), and if a previous tick assigned it
the sleep branch is computed from that stale value. -/
theorem C9_sleep_stale_or_undefined (rpcs : List String) (r : String)
    (rs : List String) (s : LoopState) (env : TickEnv) (hx : String) (l : Int)
    (hr : rpcs = r :: rs)
    (hres : env.latestResult = some hx) (hl : pyInt? hx = some l)
    (hnz : l ≠ 0) (hle : l ≤ s.lastBlock) :
    ∃ s2 obs, tick rpcs s env = .ok (s2, obs) ∧
      s2.blocksBehind = s.blocksBehind ∧
      (s.blocksBehind = none →
        obs.raised = true ∧ obs.sleep = some SleepKind.afterError) ∧
      (∀ bb, s.blocksBehind = some bb →
        obs.raised = false ∧
        obs.sleep = some (if 5 < bb then SleepKind.fast
                          else if 1 < bb then SleepKind.base
                          else SleepKind.jittered)) := by
  subst hr
  have hnlt : ¬(s.lastBlock < l) := by omega
  obtain ⟨n, b, hbest⟩ := get_best_rpc_isOk r rs env.probes
  cases hpc : env.periodicCheck with
  | false =>
    cases hbb : s.blocksBehind with
    | none =>
      refine ⟨{ s with consecutiveErrors := 1 },
        ⟨none, some SleepKind.afterError, true⟩, ?_, by simp [hbb],
        fun _ => ⟨rfl, rfl⟩, fun bb hbb2 => absurd hbb2 (by simp)⟩
      simp [tick, tickBody, latestStep, heightDispatch, sleepStage, zeroHeightStep, newBlocksStep, hpc, hres, hl, hbb, hnz, hnlt]
    | some bb =>
      refine ⟨{ s with consecutiveErrors := 0 },
        ⟨none, some (if 5 < bb then SleepKind.fast
                     else if 1 < bb then SleepKind.base
                     else SleepKind.jittered), false⟩, ?_, by simp [hbb],
        fun hc => absurd hc (by simp),
        fun bb2 hbb2 => by
          rw [Option.some_inj] at hbb2
          subst hbb2
          exact ⟨rfl, rfl⟩⟩
      simp [tick, tickBody, latestStep, heightDispatch, sleepStage, zeroHeightStep, newBlocksStep, hpc, hres, hl, hbb, hnz, hnlt]
  | true =>
    cases hbb : s.blocksBehind with
    | none =>
      refine ⟨{ s with node := n, consecutiveErrors := 1 },
        ⟨none, some SleepKind.afterError, true⟩, ?_, by simp [hbb],
        fun _ => ⟨rfl, rfl⟩, fun bb hbb2 => absurd hbb2 (by simp)⟩
      simp [tick, tickBody, latestStep, heightDispatch, sleepStage, zeroHeightStep, newBlocksStep, hpc, hres, hl, hbb, hnz, hnlt, hbest]
    | some bb =>
      refine ⟨{ s with node := n, consecutiveErrors := 0 },
        ⟨none, some (if 5 < bb then SleepKind.fast
                     else if 1 < bb then SleepKind.base
                     else SleepKind.jittered), false⟩, ?_, by simp [hbb],
        fun hc => absurd hc (by simp),
        fun bb2 hbb2 => by
          rw [Option.some_inj] at hbb2
          subst hbb2
          exact ⟨rfl, rfl⟩⟩
      simp [tick, tickBody, latestStep, heightDispatch, sleepStage, zeroHeightStep, newBlocksStep, hpc, hres, hl, hbb, hnz, hnlt, hbest]

/-- C3: on a tick with new blocks, when the gap exceeds MAX_BLOCK_GAP the
tracker first sets lastBlock to latest - 2, so the range handed to the
log fetcher is [latest - 1, latest] and no block of
[old lastBlock + 1, latest - 3] lies in it; when the gap is within the
cap the fetched range is [old lastBlock + 1, latest]; in both cases
lastBlock ends at latest when the tick completes without raising. -/
theorem C3_catchup_cap_policy (rpcs : List String) (r : String) (rs : List String)
    (s : LoopState) (env : TickEnv) (hx : String) (latest : Int)
    (hr : rpcs = r :: rs)
    (hres : env.latestResult = some hx) (hl : pyInt? hx = some latest)
    (h0 : 0 ≤ s.lastBlock) (hgt : s.lastBlock < latest) :
    ∃ s2 obs, tick rpcs s env = .ok (s2, obs) ∧
      obs.range = some
        ((if MAX_BLOCK_GAP < latest - s.lastBlock then latest - 1
          else s.lastBlock + 1), latest) ∧
      (obs.raised = false → s2.lastBlock = latest) ∧
      (MAX_BLOCK_GAP < latest - s.lastBlock →
        ∀ b2 : Int, s.lastBlock + 1 ≤ b2 → b2 ≤ latest - 3 →
          ¬(latest - 1 ≤ b2 ∧ b2 ≤ latest)) := by
  subst hr
  have hnz : latest ≠ 0 := by omega
  obtain ⟨n, b, hbest⟩ := get_best_rpc_isOk r rs env.probes
  by_cases hgap : MAX_BLOCK_GAP < latest - s.lastBlock
  · have h10 : (10 : Int) < latest - s.lastBlock := hgap
    have h5 : (5 : Int) < latest - s.lastBlock := by omega
    have harith : latest - 2 + 1 = latest - 1 := by omega
    cases hpc : env.periodicCheck with
    | false =>
      cases hproc : processLogs WATCH_ADDRESS env.symResp env.now s.proc
          (get_transfer_logs_batch (latest - 1) latest env.chunkResp) with
      | error pSt =>
        refine ⟨LoopState.mk s.node (latest - 2) 1 (some (latest - s.lastBlock)) pSt,
          ⟨some (latest - 1, latest), some SleepKind.afterError, true⟩,
          ?_, by simp [hgap], fun hF => absurd hF (by simp),
          fun _ b2 hb1 hb2 => by omega⟩
        simp [tick, tickBody, latestStep, heightDispatch, sleepStage, zeroHeightStep, newBlocksStep, hpc, hres, hl, hnz, hgt, hgap, hproc,
          h5, harith]
      | ok pSt =>
        refine ⟨LoopState.mk s.node latest 0 (some (latest - s.lastBlock)) pSt,
          ⟨some (latest - 1, latest), some SleepKind.fast, false⟩,
          ?_, by simp [hgap], fun _ => rfl,
          fun _ b2 hb1 hb2 => by omega⟩
        simp [tick, tickBody, latestStep, heightDispatch, sleepStage, zeroHeightStep, newBlocksStep, hpc, hres, hl, hnz, hgt, hgap, hproc,
          h5, harith]
    | true =>
      cases hproc : processLogs WATCH_ADDRESS env.symResp env.now s.proc
          (get_transfer_logs_batch (latest - 1) latest env.chunkResp) with
      | error pSt =>
        refine ⟨LoopState.mk n (latest - 2) 1 (some (latest - s.lastBlock)) pSt,
          ⟨some (latest - 1, latest), some SleepKind.afterError, true⟩,
          ?_, by simp [hgap], fun hF => absurd hF (by simp),
          fun _ b2 hb1 hb2 => by omega⟩
        simp [tick, tickBody, latestStep, heightDispatch, sleepStage, zeroHeightStep, newBlocksStep, hpc, hres, hl, hnz, hgt, hgap, hproc,
          h5, harith, hbest]
      | ok pSt =>
        refine ⟨LoopState.mk n latest 0 (some (latest - s.lastBlock)) pSt,
          ⟨some (latest - 1, latest), some SleepKind.fast, false⟩,
          ?_, by simp [hgap], fun _ => rfl,
          fun _ b2 hb1 hb2 => by omega⟩
        simp [tick, tickBody, latestStep, heightDispatch, sleepStage, zeroHeightStep, newBlocksStep, hpc, hres, hl, hnz, hgt, hgap, hproc,
          h5, harith, hbest]
  · cases hpc : env.periodicCheck with
    | false =>
      cases hproc : processLogs WATCH_ADDRESS env.symResp env.now s.proc
          (get_transfer_logs_batch (s.lastBlock + 1) latest env.chunkResp) with
      | error pSt =>
        refine ⟨LoopState.mk s.node s.lastBlock 1 (some (latest - s.lastBlock)) pSt,
          ⟨some (s.lastBlock + 1, latest), some SleepKind.afterError, true⟩,
          ?_, by simp [hgap], fun hF => absurd hF (by simp),
          fun hc => absurd hc hgap⟩
        simp [tick, tickBody, latestStep, heightDispatch, sleepStage, zeroHeightStep, newBlocksStep, hpc, hres, hl, hnz, hgt, hgap, hproc]
      | ok pSt =>
        refine ⟨LoopState.mk s.node latest 0 (some (latest - s.lastBlock)) pSt,
          ⟨some (s.lastBlock + 1, latest),
            some (if 5 < latest - s.lastBlock then SleepKind.fast
                  else if 1 < latest - s.lastBlock then SleepKind.base
                  else SleepKind.jittered), false⟩,
          ?_, by simp [hgap], fun _ => rfl,
          fun hc => absurd hc hgap⟩
        simp [tick, tickBody, latestStep, heightDispatch, sleepStage, zeroHeightStep, newBlocksStep, hpc, hres, hl, hnz, hgt, hgap, hproc]
    | true =>
      cases hproc : processLogs WATCH_ADDRESS env.symResp env.now s.proc
          (get_transfer_logs_batch (s.lastBlock + 1) latest env.chunkResp) with
      | error pSt =>
        refine ⟨LoopState.mk n s.lastBlock 1 (some (latest - s.lastBlock)) pSt,
          ⟨some (s.lastBlock + 1, latest), some SleepKind.afterError, true⟩,
          ?_, by simp [hgap], fun hF => absurd hF (by simp),
          fun hc => absurd hc hgap⟩
        simp [tick, tickBody, latestStep, heightDispatch, sleepStage, zeroHeightStep, newBlocksStep, hpc, hres, hl, hnz, hgt, hgap, hproc,
          hbest]
      | ok pSt =>
        refine ⟨LoopState.mk n latest 0 (some (latest - s.lastBlock)) pSt,
          ⟨some (s.lastBlock + 1, latest),
            some (if 5 < latest - s.lastBlock then SleepKind.fast
                  else if 1 < latest - s.lastBlock then SleepKind.base
                  else SleepKind.jittered), false⟩,
          ?_, by simp [hgap], fun _ => rfl,
          fun hc => absurd hc hgap⟩
        simp [tick, tickBody, latestStep, heightDispatch, sleepStage, zeroHeightStep, newBlocksStep, hpc, hres, hl, hnz, hgt, hgap, hproc,
          hbest]

/-- Witness for C9: a quiet tick at height 100 with lastBlock 100 and a
stale blocks_behind of 1 sleeps on the jittered branch. -/
theorem C9_sleep_stale_witness :
    ∃ s2 obs, tick exRpcs1 exStateQuiet exEnvQuiet = .ok (s2, obs) ∧
      s2.blocksBehind = exStateQuiet.blocksBehind ∧
      (exStateQuiet.blocksBehind = none →
        obs.raised = true ∧ obs.sleep = some SleepKind.afterError) ∧
      (∀ bb, exStateQuiet.blocksBehind = some bb →
        obs.raised = false ∧
        obs.sleep = some (if 5 < bb then SleepKind.fast
                          else if 1 < bb then SleepKind.base
                          else SleepKind.jittered)) :=
  C9_sleep_stale_or_undefined exRpcs1 exNodeA [] exStateQuiet exEnvQuiet exHex100 100
    rfl rfl (by decide) (by decide) (by decide)

/-- Witness for C3: lastBlock 100, height 150 — gap 50 beyond the cap, so
the tick fetches [149, 150] and finishes at lastBlock 150. -/
theorem C3_catchup_cap_witness :
    ∃ s2 obs, tick exRpcs1 exStateGap exEnvGap = .ok (s2, obs) ∧
      obs.range = some
        ((if MAX_BLOCK_GAP < 150 - exStateGap.lastBlock then 150 - 1
          else exStateGap.lastBlock + 1), 150) ∧
      (obs.raised = false → s2.lastBlock = 150) ∧
      (MAX_BLOCK_GAP < 150 - exStateGap.lastBlock →
        ∀ b2 : Int, exStateGap.lastBlock + 1 ≤ b2 → b2 ≤ 150 - 3 →
          ¬(150 - 1 ≤ b2 ∧ b2 ≤ 150)) :=
  C3_catchup_cap_policy exRpcs1 exNodeA [] exStateGap exEnvGap exHex150 150
    rfl rfl (by decide) (by decide) (by decide)

/-- Counterexample to C5: with every probe reporting height 0, the tick's
periodic re-selection does not keep the previously active endpoint (the
second configured one) — it switches to the first configured endpoint. -/
theorem C5_counterexample_switches_endpoint :
    (∀ p ∈ cxEnv5.probes, ¬ 0 < p.blk) ∧
    tick exRpcs2 cxState5 cxEnv5 =
      .ok (LoopState.mk exNodeA 200 0 (some 1) emptyProc,
           ⟨none, some SleepKind.jittered, false⟩) ∧
    cxState5.node ≠ exNodeA := by
  refine ⟨by decide, by decide, by decide⟩

theorem sleepStage_state (st : LoopState) (obs : TickObs) :
    ∀ out, sleepStage st obs = out → stateOf out = st := by
  intro out hout
  unfold sleepStage at hout
  repeat' split at hout
  all_goals subst hout
  all_goals rfl

theorem zeroHeightStep_lastBlock (rpcs : List String) (s1 : LoopState) (env : TickEnv) :
    ∀ out, zeroHeightStep rpcs s1 env = out → (stateOf out).lastBlock = s1.lastBlock := by
  intro out hout
  unfold zeroHeightStep at hout
  repeat' split at hout
  all_goals subst hout
  all_goals try simp only [stateOf]
  all_goals try split_ifs
  all_goals rfl

theorem newBlocksStep_lastBlock (s2 : LoopState) (env : TickEnv) (latest : Int)
    (hlt : s2.lastBlock < latest) :
    ∀ out, newBlocksStep s2 env latest = out → s2.lastBlock ≤ (stateOf out).lastBlock := by
  intro out hout
  simp only [newBlocksStep] at hout
  repeat' split at hout
  all_goals try subst hout
  all_goals try rw [sleepStage_state _ _ _ rfl]
  all_goals try simp only [stateOf]
  all_goals try simp only [MAX_BLOCK_GAP] at *
  all_goals omega

theorem heightDispatch_lastBlock_mono (rpcs : List String) (s1 : LoopState)
    (env : TickEnv) (latest : Int) :
    ∀ out, heightDispatch rpcs s1 env latest = out →
      s1.lastBlock ≤ (stateOf out).lastBlock := by
  intro out hout
  simp only [heightDispatch] at hout
  split at hout
  · rw [zeroHeightStep_lastBlock rpcs _ env out hout]
  · split at hout
    · rename_i hlt2
      exact newBlocksStep_lastBlock { s1 with consecutiveErrors := 0 } env latest hlt2
        out hout
    · rw [sleepStage_state _ _ out hout]

theorem latestStep_lastBlock_mono (rpcs : List String) (s1 : LoopState)
    (env : TickEnv) :
    ∀ out, latestStep rpcs s1 env = out → s1.lastBlock ≤ (stateOf out).lastBlock := by
  intro out hout
  unfold latestStep at hout
  split at hout
  · exact heightDispatch_lastBlock_mono rpcs s1 env 0 out hout
  · split at hout
    · subst hout; exact le_refl _
    · exact heightDispatch_lastBlock_mono rpcs s1 env _ out hout

/-- Within the try suite, lastBlock never decreases: the only writes are
the catch-up jump to latest - 2 (more than 8 above the old value) and the
final advance to latest. -/
theorem tickBody_lastBlock_mono (rpcs : List String) (s : LoopState) (env : TickEnv) :
    ∀ out, tickBody rpcs s env = out → s.lastBlock ≤ (stateOf out).lastBlock := by
  intro out hout
  unfold tickBody at hout
  split at hout
  · split at hout
    · subst hout; exact le_refl _
    · rename_i r hq
      exact latestStep_lastBlock_mono rpcs { s with node := r.1 } env out hout
  · exact latestStep_lastBlock_mono rpcs s env out hout

theorem newBlocksStep_node_ce (s2 : LoopState) (env : TickEnv) (latest : Int) :
    ∀ out, newBlocksStep s2 env latest = out →
      (stateOf out).node = s2.node ∧
      (stateOf out).consecutiveErrors = s2.consecutiveErrors := by
  intro out hout
  simp only [newBlocksStep] at hout
  repeat' split at hout
  all_goals try subst hout
  all_goals try rw [sleepStage_state _ _ _ rfl]
  all_goals try simp only [stateOf]
  all_goals simp

theorem latestStep_node_ce (rpcs : List String) (s1 : LoopState) (env : TickEnv)
    (hx : String) (l : Int) (hres : env.latestResult = some hx)
    (hl : pyInt? hx = some l) (hnz : l ≠ 0) :
    ∀ out, latestStep rpcs s1 env = out →
      (stateOf out).node = s1.node ∧ (stateOf out).consecutiveErrors = 0 := by
  intro out hout
  unfold latestStep at hout
  simp only [hres, hl] at hout
  simp only [heightDispatch, if_neg hnz] at hout
  split at hout
  · exact newBlocksStep_node_ce { s1 with consecutiveErrors := 0 } env l out hout
  · rw [sleepStage_state _ _ out hout]
    exact ⟨rfl, rfl⟩

/-- C5 as amended: when no probe reports a positive height, selection does
not fail — it returns the first configured endpoint with height 0 — and
any tick whose periodic re-selection sees such probes (and whose height
query parses to a nonzero value) has the first configured endpoint as its
active endpoint afterwards, keeping the previous endpoint only when it
already is the first one. -/
theorem C5_amended_fallback_to_first (r : String) (rs : List String) (s : LoopState)
    (env : TickEnv) (hx : String) (l : Int)
    (hprobes : ∀ p ∈ env.probes, ¬ 0 < p.blk)
    (hpc : env.periodicCheck = true)
    (hres : env.latestResult = some hx) (hl : pyInt? hx = some l)
    (hnz : l ≠ 0) :
    get_best_rpc (r :: rs) env.probes = .ok (r, 0) ∧
    ∃ s2 obs, tick (r :: rs) s env = .ok (s2, obs) ∧ s2.node = r := by
  have hfil : env.probes.filter (fun p => 0 < p.blk) = [] := by
    rw [List.filter_eq_nil_iff]
    intro p hp
    simpa using hprobes p hp
  have hbest : get_best_rpc (r :: rs) env.probes = .ok (r, 0) := by
    simp [get_best_rpc, hfil]
  refine ⟨hbest, ?_⟩
  have hbody : tickBody (r :: rs) s env = latestStep (r :: rs) { s with node := r } env := by
    simp [tickBody, hpc, hbest]
  cases hb : latestStep (r :: rs) { s with node := r } env with
  | ok r2 =>
    have hn := (latestStep_node_ce (r :: rs) _ env hx l hres hl hnz _ hb).1
    refine ⟨r2.1, r2.2, ?_, hn⟩
    unfold tick
    rw [hbody, hb]
  | error e =>
    have hn := (latestStep_node_ce (r :: rs) _ env hx l hres hl hnz _ hb).1
    have hce : e.1.consecutiveErrors = 0 :=
      (latestStep_node_ce (r :: rs) _ env hx l hres hl hnz _ hb).2
    have h5 : ¬ 5 < e.1.consecutiveErrors + 1 := by omega
    refine ⟨{ e.1 with consecutiveErrors := e.1.consecutiveErrors + 1 },
      { e.2 with raised := true, sleep := some SleepKind.afterError }, ?_, hn⟩
    unfold tick
    rw [hbody, hb]
    simp only [if_neg h5]

/-- Witness for C5 as amended, on the counterexample fixtures. -/
theorem C5_amended_fallback_witness :
    get_best_rpc (exNodeA :: [exNodeB]) cxEnv5.probes = .ok (exNodeA, 0) ∧
    ∃ s2 obs, tick (exNodeA :: [exNodeB]) cxState5 cxEnv5 = .ok (s2, obs) ∧
      s2.node = exNodeA :=
  C5_amended_fallback_to_first exNodeA [exNodeB] cxState5 cxEnv5 exHex100 100
    (by decide) rfl rfl (by decide) (by decide)


/-- C1 as amended: across any tick that leaves the process alive,
lastBlock is non-decreasing except on the repeated-failure escalation
path (more than 5 consecutive errors inside the exception handler), which
re-initializes lastBlock to whatever height the fresh get_best_rpc call
reports — possibly smaller, and 0 when no probe reports a positive
height. -/
theorem C1_amended_lastBlock_monotone_or_reselect (rpcs : List String)
    (s : LoopState) (env : TickEnv) (s2 : LoopState) (obs : TickObs)
    (h : tick rpcs s env = .ok (s2, obs)) :
    s.lastBlock ≤ s2.lastBlock ∨
    ∃ n, get_best_rpc rpcs env.probes2 = .ok (n, s2.lastBlock) := by
  have hmono := tickBody_lastBlock_mono rpcs s env (tickBody rpcs s env) rfl
  unfold tick at h
  cases hb : tickBody rpcs s env with
  | ok r =>
    rw [hb] at h hmono
    simp only [] at h
    rw [Except.ok.injEq] at h
    subst h
    left
    exact hmono
  | error e =>
    rw [hb] at h hmono
    simp only [] at h
    by_cases h5 : 5 < e.1.consecutiveErrors + 1
    · rw [if_pos h5] at h
      cases hg : get_best_rpc rpcs env.probes2 with
      | error u =>
        rw [hg] at h
        simp at h
      | ok r2 =>
        rw [hg] at h
        simp only [] at h
        rw [Except.ok.injEq, Prod.mk.injEq] at h
        right
        refine ⟨r2.1, ?_⟩
        have hs2 : s2.lastBlock = r2.2 := by rw [← h.1]
        rw [hs2]
    · rw [if_neg h5] at h
      rw [Except.ok.injEq, Prod.mk.injEq] at h
      left
      rw [← h.1]
      exact hmono

/-- Witness for C1 as amended: a normal catch-up tick advances lastBlock
from 100 to 150 (left disjunct). -/
theorem C1_amended_monotone_witness :
    exStateGap.lastBlock ≤
        (LoopState.mk exNodeA 150 0 (some 50) emptyProc).lastBlock ∨
    ∃ n, get_best_rpc exRpcs1 exEnvGap.probes2 =
        .ok (n, (LoopState.mk exNodeA 150 0 (some 50) emptyProc).lastBlock) :=
  C1_amended_lastBlock_monotone_or_reselect exRpcs1 exStateGap exEnvGap
    (LoopState.mk exNodeA 150 0 (some 50) emptyProc)
    ⟨some (149, 150), some SleepKind.fast, false⟩ (by decide)

/-- Counterexample to C1: starting from the real startup state at
lastBlock 100, five ticks with malformed height answers accumulate
consecutive errors to 5, and the sixth such tick runs the escalation path
(more than 5 consecutive errors), whose re-selection — no probe reporting
a positive height — assigns lastBlock := 0 < 100. -/
theorem C1_counterexample_lastBlock_decreases :
    mainInit exRpcs1 c1Probes = .ok c1Start ∧
    runTicks exRpcs1 c1Start [c1EnvBad, c1EnvBad, c1EnvBad, c1EnvBad, c1EnvBad] =
      .ok (LoopState.mk exNodeA 100 5 none emptyProc) ∧
    tick exRpcs1 (LoopState.mk exNodeA 100 5 none emptyProc) c1EnvBad =
      .ok (LoopState.mk exNodeA 0 0 none emptyProc,
           ⟨none, some SleepKind.afterError, true⟩) ∧
    ((0 : Int) < 100) := by
  refine ⟨by decide, by decide, by decide, by decide⟩


end HLWatcher

